import Mathlib

/-!
Verification of the KensenichLego grid placement / history / physics-bridge
core against its specification.

The TypeScript source is shallowly embedded: JavaScript numbers are modelled
as rationals (`ℚ`), `Math.round` as Mathlib's `round` (both are
floor-of-plus-half, including on negatives and at halfway points), the
JavaScript remainder operator `%` (which truncates toward zero, keeping the
dividend's sign) as `Int.tmod`, and `Number.prototype.toFixed(2)` followed by
`parseFloat` as rounding to an integer multiple of 1/100.
-/

/-- JavaScript `%` on integers: remainder of truncated division
(sign follows the dividend), i.e. `Int.tmod`. -/
def jsRem (a b : ℤ) : ℤ := Int.tmod a b

/-- JavaScript `x.toFixed(2)` re-read by `parseFloat`: round to the nearest
multiple of 1/100 (ties away from zero coincide with ties up on the
nonnegative values this program feeds it). -/
def toFixed2 (q : ℚ) : ℚ := (round (q * 100) : ℚ) / 100

/-- A 3-component vector of grid coordinates (source: `[number,number,number]`). -/
structure Vec3 where
  x : ℚ
  y : ℚ
  z : ℚ
deriving DecidableEq, Repr

instance : Inhabited Vec3 := ⟨⟨0, 0, 0⟩⟩

/-- `BrickTypeDefinition` from `types.ts`: footprint in studs, height as a
multiple of the standard brick height. -/
structure BrickTypeDefinition where
  id : String
  name : String
  category : String
  width : ℕ
  depth : ℕ
  height : ℚ
  hasStuds : Bool
  hasHoles : Bool := false
deriving DecidableEq, Repr

instance : Inhabited BrickTypeDefinition :=
  ⟨⟨"brick_1x1", "Brick 1x1", "basic", 1, 1, 1, true, false⟩⟩

/-- `PlacedBrick` from `types.ts`. The `rotation` field is a JS number; the
interactive code keeps it in {0,1,2,3} but the type does not enforce that. -/
structure PlacedBrick where
  id : String
  typeId : String
  position : Vec3
  rotation : ℤ
  color : String
deriving DecidableEq, Repr

/-- `BrickColor` from `types.ts`. -/
structure BrickColor where
  id : String
  name : String
  hex : String
deriving DecidableEq, Repr

instance : Inhabited BrickColor := ⟨⟨"red", "Bright Red", "#ef4444"⟩⟩

/-- Dimension constants from the constants module. -/
def STUD_SIZE : ℚ := 1

/-- Standard brick height (1.2 world units). -/
def BRICK_HEIGHT : ℚ := 6/5

/-- Plate height (0.4 world units), the vertical snapping granularity. -/
def PLATE_HEIGHT : ℚ := 2/5

/-- The color table from the constants module. -/
def COLORS : List BrickColor :=
  [ ⟨"red", "Bright Red", "#ef4444"⟩,
    ⟨"blue", "Bright Blue", "#3b82f6"⟩,
    ⟨"yellow", "Bright Yellow", "#eab308"⟩,
    ⟨"green", "Dark Green", "#15803d"⟩,
    ⟨"black", "Black", "#171717"⟩,
    ⟨"white", "White", "#f3f4f6"⟩,
    ⟨"grey", "Medium Stone Grey", "#9ca3af"⟩,
    ⟨"orange", "Bright Orange", "#f97316"⟩,
    ⟨"purple", "Medium Lilac", "#a855f7"⟩,
    ⟨"lime", "Lime", "#84cc16"⟩ ]

/-- The part catalog from the constants module. -/
def BRICK_CATALOG : List BrickTypeDefinition :=
  [ ⟨"brick_1x1", "Brick 1x1", "basic", 1, 1, 1, true, false⟩,
    ⟨"brick_1x2", "Brick 1x2", "basic", 1, 2, 1, true, false⟩,
    ⟨"brick_1x4", "Brick 1x4", "basic", 1, 4, 1, true, false⟩,
    ⟨"brick_2x2", "Brick 2x2", "basic", 2, 2, 1, true, false⟩,
    ⟨"brick_2x4", "Brick 2x4", "basic", 2, 4, 1, true, false⟩,
    ⟨"plate_1x1", "Plate 1x1", "plate", 1, 1, 33/100, true, false⟩,
    ⟨"plate_1x2", "Plate 1x2", "plate", 1, 2, 33/100, true, false⟩,
    ⟨"plate_2x2", "Plate 2x2", "plate", 2, 2, 33/100, true, false⟩,
    ⟨"plate_2x4", "Plate 2x4", "plate", 2, 4, 33/100, true, false⟩,
    ⟨"plate_4x4", "Plate 4x4", "plate", 4, 4, 33/100, true, false⟩,
    ⟨"technic_1x2", "Technic Beam 2", "technic", 1, 2, 1, false, true⟩,
    ⟨"technic_1x4", "Technic Beam 4", "technic", 1, 4, 1, false, true⟩,
    ⟨"technic_1x8", "Technic Beam 8", "technic", 1, 8, 1, false, true⟩ ]

/-- `rotation % 2 !== 0`: whether a 90/270-degree rotation is in effect,
which swaps the footprint's width and depth. -/
def isRotated (rot : ℤ) : Bool := jsRem rot 2 ≠ 0

/-- Vertical snapping from `handlePointerMove`:
`y = Math.round(y / PLATE_HEIGHT) * PLATE_HEIGHT`, clamp below at 0, then
`parseFloat(y.toFixed(2))`. -/
def snapY (ty : ℚ) : ℚ :=
  let y : ℚ := (round (ty / PLATE_HEIGHT) : ℚ) * PLATE_HEIGHT
  let y := if y < 0 then 0 else y
  toFixed2 y

/-- The Placement Resolver (`handlePointerMove`): offset the hit point by
epsilon 0.01 along the surface normal, snap X/Z to integers, snap Y to
plate-height multiples clamped at ground, then apply the even-footprint
centering correction of +0.5 on each horizontal axis independently. -/
def resolvePointer (brick : BrickTypeDefinition) (rot : ℤ) (point normal : Vec3) :
    Vec3 :=
  let epsilon : ℚ := 1/100
  let tx := point.x + normal.x * epsilon
  let ty := point.y + normal.y * epsilon
  let tz := point.z + normal.z * epsilon
  let x : ℚ := (round tx : ℤ)
  let z : ℚ := (round tz : ℤ)
  let y := snapY ty
  let effectiveWidth := if isRotated rot then brick.depth else brick.width
  let effectiveDepth := if isRotated rot then brick.width else brick.depth
  let finalX := if effectiveWidth % 2 = 0 then x + 1/2 else x
  let finalZ := if effectiveDepth % 2 = 0 then z + 1/2 else z
  ⟨finalX, y, finalZ⟩

/-- Effective footprint width after rotation (90/270 swaps width and depth). -/
def effWidth (brick : BrickTypeDefinition) (rot : ℤ) : ℕ :=
  if isRotated rot then brick.depth else brick.width

/-- Effective footprint depth after rotation. -/
def effDepth (brick : BrickTypeDefinition) (rot : ℤ) : ℕ :=
  if isRotated rot then brick.width else brick.depth

/-- The tool modes of `types.ts`. -/
inductive ToolMode where
  | view | place | delete | paint | rotate
deriving DecidableEq, Repr

/-- The application state relevant to the Build State Store and History
Manager: the `useState` hooks of `App` (`bricks`, `selectedTypeId`,
`selectedColorId`, `rotation`, `hoverPos`, `history`, `historyIndex`). -/
structure AppState where
  bricks : List PlacedBrick
  selectedTypeId : String
  selectedColorId : String
  rotation : ℤ
  hoverPos : Vec3
  history : List (List PlacedBrick)
  historyIndex : ℤ
deriving DecidableEq, Repr

/-- The initial hook values: no bricks, first catalog part selected, color
`red`, rotation 0, empty history with sentinel index -1. -/
def initialState : AppState :=
  { bricks := []
    selectedTypeId := "brick_1x1"
    selectedColorId := "red"
    rotation := 0
    hoverPos := ⟨0, 0, 0⟩
    history := []
    historyIndex := -1 }

/-- `addToHistory`: truncate the history to `historyIndex + 1` entries
(discarding any redo branch), append the new snapshot, point the index at the
new last entry, and replace the brick list. -/
def addToHistory (newBricks : List PlacedBrick) (s : AppState) : AppState :=
  let newHistory := s.history.take (s.historyIndex + 1).toNat ++ [newBricks]
  { s with
    history := newHistory
    historyIndex := (newHistory.length : ℤ) - 1
    bricks := newBricks }

/-- `undo`: at a positive index step back and restore that snapshot; at index
0 reset to the sentinel -1 and the empty build; at the sentinel do nothing. -/
def undo (s : AppState) : AppState :=
  if 0 < s.historyIndex then
    { s with
      historyIndex := s.historyIndex - 1
      bricks := s.history.getD (s.historyIndex - 1).toNat [] }
  else if s.historyIndex = 0 then
    { s with historyIndex := -1, bricks := [] }
  else s

/-- `redo`: if the index is before the last snapshot, step forward and
restore that snapshot; otherwise do nothing. -/
def redo (s : AppState) : AppState :=
  if s.historyIndex < (s.history.length : ℤ) - 1 then
    { s with
      historyIndex := s.historyIndex + 1
      bricks := s.history.getD (s.historyIndex + 1).toNat [] }
  else s

/-- `handlePlaceBrick`: append one new `PlacedBrick` built from the current
selection, hover position and rotation, with a fresh identifier (the uuid is
passed in here, the source draws it from `uuidv4()`). -/
def handlePlaceBrick (newId : String) (s : AppState) : AppState :=
  let colorHex := ((COLORS.find? (fun c => c.id == s.selectedColorId)).map
    (fun c => c.hex)).getD "#fff"
  let newBrick : PlacedBrick :=
    { id := newId
      typeId := s.selectedTypeId
      position := s.hoverPos
      rotation := s.rotation
      color := colorHex }
  addToHistory (s.bricks ++ [newBrick]) s

/-- `handleBrickClick`: with the delete tool, filter the clicked id out; with
the paint tool, recolor the clicked id to the selected color; both commit a
new history snapshot. Other tools do nothing here. -/
def handleBrickClick (tool : ToolMode) (brickId : String) (s : AppState) :
    AppState :=
  if tool = ToolMode.delete then
    addToHistory (s.bricks.filter (fun b => b.id != brickId)) s
  else if tool = ToolMode.paint then
    let colorHex := ((COLORS.find? (fun c => c.id == s.selectedColorId)).map
      (fun c => c.hex)).getD "#fff"
    addToHistory (s.bricks.map (fun b =>
      if b.id == brickId then { b with color := colorHex } else b)) s
  else s

/-- `rotateBrick`: advance the selection's rotation state modulo 4. -/
def rotateBrick (s : AppState) : AppState :=
  { s with rotation := jsRem (s.rotation + 1) 4 }

/-- `clearScene` (after the user confirms): commit the empty build. -/
def clearScene (s : AppState) : AppState :=
  addToHistory [] s

/-- `importFromFile` after a successful `JSON.parse`: the parsed brick list is
committed verbatim through `addToHistory`, with no validation of rotation or
position. -/
def importFromFile (loadedBricks : List PlacedBrick) (s : AppState) : AppState :=
  addToHistory loadedBricks s

/-- `handleAiBuild` on a successful generation: append the generated bricks to
the current build and commit. -/
def handleAiBuild (generatedBricks : List PlacedBrick) (s : AppState) : AppState :=
  addToHistory (s.bricks ++ generatedBricks) s

/-- The physics body descriptor handed to the physics collaborator by
`PhysicsBrick` via `useBox`: mass, center position and axis-aligned collider
size. -/
structure BodyDescriptor where
  mass : ℚ
  centerX : ℚ
  centerY : ℚ
  centerZ : ℚ
  sizeW : ℚ
  sizeH : ℚ
  sizeD : ℚ
deriving DecidableEq, Repr

/-- The Simulation Bridge (`PhysicsBrick`): look the part up in the catalog
(defaulting each dimension to 1 on a miss, as the source's ternaries do), swap
width and depth when the rotation state is odd, shrink the horizontal collider
extents by 0.02 against jitter, and lift the body center by half the world
height above the stored floor-aligned Y. -/
def physicsBody (brick : PlacedBrick) : BodyDescriptor :=
  let dfn := BRICK_CATALOG.find? (fun b => b.id == brick.typeId)
  let w := match dfn with | some d => (d.width : ℚ) * STUD_SIZE | none => 1
  let d := match dfn with | some d => (d.depth : ℚ) * STUD_SIZE | none => 1
  let h := match dfn with | some d => d.height * BRICK_HEIGHT | none => 1
  let finalW := if isRotated brick.rotation then d else w
  let finalD := if isRotated brick.rotation then w else d
  { mass := 1
    centerX := brick.position.x
    centerY := brick.position.y + h / 2
    centerZ := brick.position.z
    sizeW := finalW - 1/50
    sizeH := h
    sizeD := finalD - 1/50 }

/-- One record of the AI response schema:
`{partId, x, y, z, rotation, colorId}`; `rotation` is `Option` so that an
absent field can be modelled. -/
structure AiRecord where
  partId : String
  x : ℚ
  y : ℚ
  z : ℚ
  rotation : Option ℤ
  colorId : String
deriving DecidableEq, Repr

/-- Per-record conversion in `generateBuildFromPrompt`: an unknown `colorId`
falls back to the first color's hex, an unknown `partId` to the first catalog
entry, and a missing rotation to 0 (`item.rotation || 0`); the fresh uuid is
passed in. -/
def mapAiRecord (newId : String) (item : AiRecord) : PlacedBrick :=
  let color := ((COLORS.find? (fun c => c.id == item.colorId)).map
    (fun c => c.hex)).getD (COLORS.headI.hex)
  let part := (BRICK_CATALOG.find? (fun b => b.id == item.partId)).getD
    BRICK_CATALOG.headI
  { id := newId
    typeId := part.id
    position := ⟨item.x, item.y, item.z⟩
    rotation := item.rotation.getD 0
    color := color }

/-- The response-array conversion in `generateBuildFromPrompt`:
`rawData.map(...)`, with the uuid generator supplied as a function of the
record's position. Every record is mapped; none is dropped. -/
def mapAiResponse (gen : ℕ → String) (items : List AiRecord) : List PlacedBrick :=
  items.mapIdx (fun i item => mapAiRecord (gen i) item)

/-- A JSON value, as produced by the platform's `JSON.parse` /
consumed by `JSON.stringify`. -/
inductive Json where
  | null : Json
  | bool : Bool → Json
  | num : ℚ → Json
  | str : String → Json
  | arr : List Json → Json
  | obj : List (String × Json) → Json

/-- `JSON.stringify` applied to one `PlacedBrick` record: the object shape
`{id, typeId, position:[x,y,z], rotation, color}` in field order. -/
def brickToJson (b : PlacedBrick) : Json :=
  Json.obj
    [ ("id", Json.str b.id),
      ("typeId", Json.str b.typeId),
      ("position", Json.arr
        [Json.num b.position.x, Json.num b.position.y, Json.num b.position.z]),
      ("rotation", Json.num (b.rotation : ℚ)),
      ("color", Json.str b.color) ]

/-- Reading one `PlacedBrick` record back out of parsed JSON: `importFromFile`
uses the parsed objects directly as bricks, so a record round-trips exactly
when it has the shape `brickToJson` writes (integer rotation included). -/
def brickFromJson : Json → Option PlacedBrick
  | Json.obj
      [ ("id", Json.str i),
        ("typeId", Json.str t),
        ("position", Json.arr [Json.num px, Json.num py, Json.num pz]),
        ("rotation", Json.num r),
        ("color", Json.str c) ] =>
    if r.den = 1 then
      some { id := i, typeId := t, position := ⟨px, py, pz⟩,
             rotation := r.num, color := c }
    else none
  | _ => none

/-- `exportToFile`'s payload: `JSON.stringify(bricks)`, a JSON array of
brick records (the data-URL wrapping is transport only). -/
def exportBuild (bricks : List PlacedBrick) : Json :=
  Json.arr (bricks.map brickToJson)

/-- `importFromFile`'s parse of an exported payload back into a brick list;
`none` when the payload is not an array of well-shaped records. -/
def importBuild : Json → Option (List PlacedBrick)
  | Json.arr xs => xs.mapM brickFromJson
  | _ => none

/-! ## Theorems -/

lemma fract_int_add_half (k : ℤ) : Int.fract ((k : ℚ) + 1/2) = 1/2 := by
  rw [Int.fract_int_add]
  norm_num [Int.fract]

/-- C1: for every selected part definition and rotation state, the Placement
Resolver's output X has fractional part exactly 0.5 when the effective
(rotation-adjusted) width is even and fractional part 0 (an integer) when it
is odd; the same rule holds independently for Z with the effective depth, a
90/270-degree rotation swapping width and depth. -/
theorem resolver_centering_parity (brick : BrickTypeDefinition) (rot : ℤ)
    (point normal : Vec3) :
    Int.fract (resolvePointer brick rot point normal).x =
      (if effWidth brick rot % 2 = 0 then (1/2 : ℚ) else 0) ∧
    Int.fract (resolvePointer brick rot point normal).z =
      (if effDepth brick rot % 2 = 0 then (1/2 : ℚ) else 0) := by
  unfold resolvePointer effWidth effDepth
  constructor <;>
  · simp only
    split <;> split <;>
      first
        | exact fract_int_add_half _
        | exact Int.fract_intCast _

lemma toFixed2_int_mul_plate (n : ℤ) :
    toFixed2 ((n : ℚ) * PLATE_HEIGHT) = (n : ℚ) * PLATE_HEIGHT := by
  unfold toFixed2 PLATE_HEIGHT
  have h : ((n : ℚ) * (2/5)) * 100 = ((40 * n : ℤ) : ℚ) := by push_cast; ring
  rw [h, round_intCast]
  push_cast; ring

/-- C5: for every vertical input, the Placement Resolver's Y is a nonnegative
natural multiple of the plate-height unit 0.4 (clamped below at 0), and the
2-decimal rounding applied before it becomes a state value fixes it. -/
theorem snapY_plate_multiple (ty : ℚ) :
    0 ≤ snapY ty ∧ (∃ k : ℕ, snapY ty = (k : ℚ) * PLATE_HEIGHT) ∧
    toFixed2 (snapY ty) = snapY ty := by
  unfold snapY
  set n : ℤ := round (ty / PLATE_HEIGHT) with hn
  simp only
  split
  · have h0 : toFixed2 0 = 0 := by
      unfold toFixed2
      norm_num
    refine ⟨by rw [h0], ⟨0, by rw [h0]; norm_num⟩, by rw [h0, h0]⟩
  · rename_i hnn
    push_neg at hnn
    have hplate : (0:ℚ) < PLATE_HEIGHT := by unfold PLATE_HEIGHT; norm_num
    have hn0 : (0:ℤ) ≤ n := by
      by_contra hc
      push_neg at hc
      have : ((n : ℚ)) * PLATE_HEIGHT < 0 := by
        apply mul_neg_of_neg_of_pos _ hplate
        exact_mod_cast hc
      linarith
    rw [toFixed2_int_mul_plate]
    refine ⟨?_, ⟨n.toNat, ?_⟩, toFixed2_int_mul_plate n⟩
    · apply mul_nonneg _ (le_of_lt hplate)
      exact_mod_cast hn0
    · congr 1
      exact_mod_cast (Int.toNat_of_nonneg hn0).symm

/-- Sample brick with odd footprint (1x1). -/
def brickA : PlacedBrick := ⟨"a", "brick_1x1", ⟨0, 0, 0⟩, 0, "#ef4444"⟩

/-- Sample brick with even footprint (2x2), rotated once. -/
def brickB : PlacedBrick := ⟨"b", "brick_2x2", ⟨5/2, 0, 3/2⟩, 1, "#3b82f6"⟩

/-- Sample plate brick. -/
def brickC : PlacedBrick := ⟨"c", "plate_2x4", ⟨1/2, 2/5, 0⟩, 2, "#eab308"⟩

/-- A state whose history index points at the first of two snapshots
(one undo behind the end, so a redo target exists). -/
def sBehind : AppState :=
  { initialState with
    bricks := [brickA]
    history := [[brickA], [brickA, brickB]]
    historyIndex := 0 }

/-- A state at index 0 of a single-snapshot history. -/
def sIdx0 : AppState :=
  { initialState with
    bricks := [brickA]
    history := [[brickA]]
    historyIndex := 0 }

/-- A state at index 1 of a two-snapshot history. -/
def sIdx1 : AppState :=
  { initialState with
    bricks := [brickA, brickB]
    history := [[brickA], [brickA, brickB]]
    historyIndex := 1 }

/-- C2: `undo`/`redo` move the history index and restore the snapshot at the
new index; `undo` at index 0 yields the empty build with the sentinel index
-1; `undo` at the sentinel and `redo` at the last snapshot are no-ops; and
`undo` after a single `place` yields the empty build and index -1, with a
subsequent `redo` restoring the one-part state exactly. -/
theorem undo_redo_spec (s : AppState) :
    (s.historyIndex = -1 → undo s = s) ∧
    (s.historyIndex = 0 → (undo s).bricks = [] ∧ (undo s).historyIndex = -1) ∧
    (0 < s.historyIndex →
      (undo s).historyIndex = s.historyIndex - 1 ∧
      (undo s).bricks = s.history.getD (s.historyIndex - 1).toNat []) ∧
    ((s.history.length : ℤ) - 1 ≤ s.historyIndex → redo s = s) ∧
    (s.historyIndex < (s.history.length : ℤ) - 1 →
      (redo s).historyIndex = s.historyIndex + 1 ∧
      (redo s).bricks = s.history.getD (s.historyIndex + 1).toNat []) ∧
    (∀ newId, s.historyIndex = -1 →
      (undo (handlePlaceBrick newId s)).bricks = [] ∧
      (undo (handlePlaceBrick newId s)).historyIndex = -1 ∧
      redo (undo (handlePlaceBrick newId s)) = handlePlaceBrick newId s) := by
  refine ⟨?_, ?_, ?_, ?_, ?_, ?_⟩
  · intro h
    simp [undo, h]
  · intro h
    simp [undo, h]
  · intro h
    rw [undo, if_pos h]
    exact ⟨rfl, rfl⟩
  · intro h
    rw [redo, if_neg (by omega)]
  · intro h
    rw [redo, if_pos h]
    exact ⟨rfl, rfl⟩
  · intro newId h
    have hplace1 : (handlePlaceBrick newId s).historyIndex = 0 := by
      unfold handlePlaceBrick addToHistory
      simp [h]
    have hplace2 : (handlePlaceBrick newId s).history.length = 1 := by
      unfold handlePlaceBrick addToHistory
      simp [h]
    have hundo : undo (handlePlaceBrick newId s) =
        { handlePlaceBrick newId s with historyIndex := -1, bricks := [] } := by
      rw [undo, if_neg (by omega), if_pos hplace1]
    refine ⟨by rw [hundo], by rw [hundo], ?_⟩
    rw [hundo, redo]
    rw [if_pos (by simp [hplace2])]
    simp only
    have hb : (handlePlaceBrick newId s).bricks =
        (handlePlaceBrick newId s).history.getD 0 [] := by
      unfold handlePlaceBrick addToHistory
      simp [h]
    cases hs : handlePlaceBrick newId s with
    | mk bricks selTy selCol rot hov hist idx =>
      simp only [AppState.mk.injEq]
      have h0 : idx = 0 := by
        have := hplace1
        rw [hs] at this
        exact this
      have h1 : bricks = hist.getD 0 [] := by
        have := hb
        rw [hs] at this
        exact this
      simp_all

lemma addToHistory_effect (s : AppState) (b : List PlacedBrick)
    (h1 : -1 ≤ s.historyIndex) (h2 : s.historyIndex < (s.history.length : ℤ)) :
    (addToHistory b s).history =
      s.history.take (s.historyIndex + 1).toNat ++ [b] ∧
    (addToHistory b s).historyIndex = s.historyIndex + 1 ∧
    (addToHistory b s).bricks = b := by
  refine ⟨rfl, ?_, rfl⟩
  simp only [addToHistory, List.length_append, List.length_take,
    List.length_cons, List.length_nil]
  push_cast
  omega

/-- C3: a committed edit while the index is behind (or at) the end of the
history first discards all future snapshots, then appends the new snapshot
and points the index at the new last position. -/
theorem addToHistory_truncates (s : AppState) (b : List PlacedBrick)
    (h1 : -1 ≤ s.historyIndex) (h2 : s.historyIndex < (s.history.length : ℤ)) :
    (addToHistory b s).history =
      s.history.take (s.historyIndex + 1).toNat ++ [b] ∧
    (addToHistory b s).historyIndex = s.historyIndex + 1 ∧
    (addToHistory b s).historyIndex =
      ((addToHistory b s).history.length : ℤ) - 1 ∧
    (addToHistory b s).bricks = b := by
  obtain ⟨ha, hi, hb⟩ := addToHistory_effect s b h1 h2
  refine ⟨ha, hi, ?_, hb⟩
  rw [hi, ha]
  simp only [List.length_append, List.length_take, List.length_cons,
    List.length_nil]
  push_cast
  omega

/-- Witness for C2 at concrete states exercising every hypothesis. -/
theorem undo_redo_spec_witness :
    (undo initialState = initialState) ∧
    ((undo sIdx0).bricks = [] ∧ (undo sIdx0).historyIndex = -1) ∧
    ((undo sIdx1).historyIndex = 0 ∧
      (undo sIdx1).bricks = sIdx1.history.getD 0 []) ∧
    (redo sIdx0 = sIdx0) ∧
    ((redo sBehind).historyIndex = 1 ∧
      (redo sBehind).bricks = sBehind.history.getD 1 []) ∧
    ((undo (handlePlaceBrick "w1" initialState)).bricks = [] ∧
      (undo (handlePlaceBrick "w1" initialState)).historyIndex = -1 ∧
      redo (undo (handlePlaceBrick "w1" initialState)) =
        handlePlaceBrick "w1" initialState) := by
  refine ⟨(undo_redo_spec initialState).1 rfl,
    (undo_redo_spec sIdx0).2.1 rfl,
    ?_, (undo_redo_spec sIdx0).2.2.2.1 (by decide),
    ?_,
    (undo_redo_spec initialState).2.2.2.2.2 "w1" rfl⟩
  · have h := (undo_redo_spec sIdx1).2.2.1 (by decide)
    exact ⟨h.1, h.2⟩
  · have h := (undo_redo_spec sBehind).2.2.2.2.1 (by decide)
    exact ⟨h.1, h.2⟩

lemma getD_take_eq {α : Type} (l : List α) (d : α) (k j : ℕ) (hj : j < k)
    (hk : k ≤ l.length) : (l.take k).getD j d = l.getD j d := by
  have hjl : j < (l.take k).length := by
    simp only [List.length_take]
    omega
  rw [List.getD_eq_getElem _ _ hjl, List.getElem_take,
    List.getD_eq_getElem _ _ (by omega)]

/-- C10: clicking a brick id that is not in the build with the delete or the
paint tool leaves the brick sequence unchanged, yet still commits a new
history snapshot equal to the current state and advances the index by one, so
a subsequent undo is consumed by the no-op edit instead of reverting the
previous real edit. -/
theorem noop_click_consumes_history (s : AppState) (brickId : String)
    (habs : ∀ b ∈ s.bricks, b.id ≠ brickId)
    (h1 : -1 ≤ s.historyIndex) (h2 : s.historyIndex < (s.history.length : ℤ)) :
    (handleBrickClick ToolMode.delete brickId s).bricks = s.bricks ∧
    (handleBrickClick ToolMode.paint brickId s).bricks = s.bricks ∧
    (handleBrickClick ToolMode.delete brickId s).history =
      s.history.take (s.historyIndex + 1).toNat ++ [s.bricks] ∧
    (handleBrickClick ToolMode.paint brickId s).history =
      s.history.take (s.historyIndex + 1).toNat ++ [s.bricks] ∧
    (handleBrickClick ToolMode.delete brickId s).historyIndex =
      s.historyIndex + 1 ∧
    (handleBrickClick ToolMode.paint brickId s).historyIndex =
      s.historyIndex + 1 ∧
    (0 ≤ s.historyIndex → s.history.getD s.historyIndex.toNat [] = s.bricks →
      (undo (handleBrickClick ToolMode.delete brickId s)).bricks = s.bricks ∧
      (undo (handleBrickClick ToolMode.delete brickId s)).historyIndex =
        s.historyIndex) := by
  have hfil : s.bricks.filter (fun b => b.id != brickId) = s.bricks :=
    List.filter_eq_self.mpr (fun b hb => by simpa using habs b hb)
  have hdel : handleBrickClick ToolMode.delete brickId s =
      addToHistory s.bricks s := by
    unfold handleBrickClick
    rw [if_pos rfl, hfil]
  have hpaint : handleBrickClick ToolMode.paint brickId s =
      addToHistory s.bricks s := by
    unfold handleBrickClick
    rw [if_neg (by decide), if_pos rfl]
    simp only
    have hmem : ∀ b ∈ s.bricks,
        (if b.id == brickId then
          { b with color := ((COLORS.find? (fun c =>
              c.id == s.selectedColorId)).map (fun c => c.hex)).getD "#fff" }
          else b) = b := by
      intro b hb
      rw [if_neg (by simp [habs b hb])]
    rw [List.map_congr_left hmem]
    simp
  obtain ⟨ha, hi, hb⟩ := addToHistory_effect s s.bricks h1 h2
  refine ⟨by rw [hdel, hb], by rw [hpaint, hb], by rw [hdel, ha],
    by rw [hpaint, ha], by rw [hdel, hi], by rw [hpaint, hi], ?_⟩
  intro hge hcur
  rw [hdel]
  have hpos : 0 < (addToHistory s.bricks s).historyIndex := by
    rw [hi]; omega
  rw [undo, if_pos hpos]
  refine ⟨?_, by simp only [hi]; omega⟩
  simp only [hi, ha, add_sub_cancel_right]
  have hlen : s.historyIndex.toNat <
      (s.history.take (s.historyIndex + 1).toNat).length := by
    simp only [List.length_take]
    omega
  rw [List.getD_append _ _ _ _ hlen,
    getD_take_eq _ _ _ _ (by omega) (by omega), hcur]

/-- Witness for C10: a no-op delete click on the unknown id `zz` in a
one-brick, one-snapshot state. -/
theorem noop_click_consumes_history_witness :
    (handleBrickClick ToolMode.delete "zz" sIdx0).bricks = [brickA] ∧
    (handleBrickClick ToolMode.delete "zz" sIdx0).history =
      [[brickA], [brickA]] ∧
    (handleBrickClick ToolMode.delete "zz" sIdx0).historyIndex = 1 ∧
    (handleBrickClick ToolMode.paint "zz" sIdx0).bricks = [brickA] ∧
    (undo (handleBrickClick ToolMode.delete "zz" sIdx0)).bricks = [brickA] ∧
    (undo (handleBrickClick ToolMode.delete "zz" sIdx0)).historyIndex = 0 := by
  have h := noop_click_consumes_history sIdx0 "zz" (by decide) (by decide)
    (by decide)
  have hinner := h.2.2.2.2.2.2 (by decide) rfl
  exact ⟨h.1, by rw [h.2.2.1]; rfl, h.2.2.2.2.1, h.2.1, hinner.1, hinner.2⟩

/-- Witness for C3: committing after one undo discards the old redo target
`[brickA, brickB]` and appends the new snapshot. -/
theorem addToHistory_truncates_witness :
    (addToHistory [brickA, brickC] sBehind).history =
      [[brickA], [brickA, brickC]] ∧
    (addToHistory [brickA, brickC] sBehind).historyIndex = 1 ∧
    (addToHistory [brickA, brickC] sBehind).bricks = [brickA, brickC] := by
  have h := addToHistory_truncates sBehind [brickA, brickC] (by decide) (by decide)
  refine ⟨?_, h.2.1, h.2.2.2⟩
  rw [h.1]
  rfl

/-- C6: for every placed part whose type resolves in the catalog, the physics
body's center Y is the stored floor-aligned Y plus half the world height, and
the collider size is
`(effectiveWidth·studSize − 0.02, height·brickHeightUnit, effectiveDepth·studSize − 0.02)`
with width and depth swapped when the rotation state is odd. -/
theorem physicsBody_descriptor (brick : PlacedBrick) (dfn : BrickTypeDefinition)
    (h : BRICK_CATALOG.find? (fun b => b.id == brick.typeId) = some dfn) :
    (physicsBody brick).centerY =
      brick.position.y + dfn.height * BRICK_HEIGHT / 2 ∧
    (physicsBody brick).sizeW =
      (effWidth dfn brick.rotation : ℚ) * STUD_SIZE - 1/50 ∧
    (physicsBody brick).sizeH = dfn.height * BRICK_HEIGHT ∧
    (physicsBody brick).sizeD =
      (effDepth dfn brick.rotation : ℚ) * STUD_SIZE - 1/50 := by
  unfold physicsBody effWidth effDepth
  rw [h]
  refine ⟨rfl, ?_, rfl, ?_⟩ <;> (split <;> rfl)

/-- Witness for C6 at the rotated 2x2 brick `brickB`. -/
theorem physicsBody_descriptor_witness :
    (physicsBody brickB).centerY = 3/5 ∧
    (physicsBody brickB).sizeW = 99/50 ∧
    (physicsBody brickB).sizeH = 6/5 ∧
    (physicsBody brickB).sizeD = 99/50 := by
  have h := physicsBody_descriptor brickB
    ⟨"brick_2x2", "Brick 2x2", "basic", 2, 2, 1, true, false⟩ (by rfl)
  refine ⟨?_, ?_, ?_, ?_⟩
  · rw [h.1]
    norm_num [brickB, BRICK_HEIGHT]
  · rw [h.2.1]
    norm_num [brickB, effWidth, isRotated, jsRem, STUD_SIZE]
  · rw [h.2.2.1]
    norm_num [BRICK_HEIGHT]
  · rw [h.2.2.2]
    norm_num [brickB, effDepth, isRotated, jsRem, STUD_SIZE]

/-- C7: each AI response record is validated independently — an unknown
`partId` falls back to the first catalog entry, an unknown `colorId` to the
first color's hex, a missing rotation to 0, while known ids and present
rotations are mapped faithfully — and the whole batch is mapped one-to-one,
never dropped. -/
theorem aiImport_record_fallbacks (item : AiRecord) (newId : String) :
    (BRICK_CATALOG.find? (fun b => b.id == item.partId) = none →
      (mapAiRecord newId item).typeId = "brick_1x1") ∧
    (∀ dfn, BRICK_CATALOG.find? (fun b => b.id == item.partId) = some dfn →
      (mapAiRecord newId item).typeId = item.partId) ∧
    (COLORS.find? (fun c => c.id == item.colorId) = none →
      (mapAiRecord newId item).color = "#ef4444") ∧
    (∀ col, COLORS.find? (fun c => c.id == item.colorId) = some col →
      (mapAiRecord newId item).color = col.hex) ∧
    (item.rotation = none → (mapAiRecord newId item).rotation = 0) ∧
    (∀ r, item.rotation = some r → (mapAiRecord newId item).rotation = r) ∧
    (mapAiRecord newId item).position = ⟨item.x, item.y, item.z⟩ ∧
    (∀ (gen : ℕ → String) (items : List AiRecord),
      (mapAiResponse gen items).length = items.length) ∧
    (∀ (gen : ℕ → String) (a b : AiRecord),
      mapAiResponse gen [a, b] = [mapAiRecord (gen 0) a, mapAiRecord (gen 1) b]) := by
  refine ⟨?_, ?_, ?_, ?_, ?_, ?_, rfl, ?_, ?_⟩
  · intro h
    unfold mapAiRecord
    rw [h]
    rfl
  · intro dfn h
    have hid : dfn.id = item.partId := by
      have := List.find?_some h
      simpa using this
    unfold mapAiRecord
    rw [h]
    simpa using hid
  · intro h
    unfold mapAiRecord
    rw [h]
    rfl
  · intro col h
    unfold mapAiRecord
    rw [h]
    rfl
  · intro h
    unfold mapAiRecord
    rw [h]
    rfl
  · intro r h
    unfold mapAiRecord
    rw [h]
    rfl
  · intro gen items
    unfold mapAiResponse
    simp
  · intro gen a b
    rfl

/-- An AI record with an unknown part id, an unknown color id and a missing
rotation. -/
def aiBad : AiRecord := ⟨"castle_wall", 0, 0, 0, none, "pink"⟩

/-- A fully valid AI record. -/
def aiGood : AiRecord := ⟨"brick_2x4", 1, 2/5, 0, some 1, "blue"⟩

/-- Witness for C7: the unknown-part record is fallback-substituted, the
valid record mapped faithfully, and the two-record batch is kept whole. -/
theorem aiImport_record_fallbacks_witness :
    (mapAiRecord "u0" aiBad).typeId = "brick_1x1" ∧
    (mapAiRecord "u0" aiBad).color = "#ef4444" ∧
    (mapAiRecord "u0" aiBad).rotation = 0 ∧
    (mapAiRecord "u1" aiGood).typeId = "brick_2x4" ∧
    (mapAiRecord "u1" aiGood).color = "#3b82f6" ∧
    (mapAiRecord "u1" aiGood).rotation = 1 ∧
    (mapAiResponse (fun i => "u" ++ toString i) [aiBad, aiGood]).length = 2 := by
  have hb := aiImport_record_fallbacks aiBad "u0"
  have hg := aiImport_record_fallbacks aiGood "u1"
  refine ⟨hb.1 (by rfl), hb.2.2.1 (by rfl), hb.2.2.2.2.1 rfl,
    ?_, ?_, hg.2.2.2.2.2.1 1 rfl,
    (hb.2.2.2.2.2.2.2.1 (fun i => "u" ++ toString i) [aiBad, aiGood])⟩
  · exact hg.2.1 ⟨"brick_2x4", "Brick 2x4", "basic", 2, 4, 1, true, false⟩ (by rfl)
  · exact hg.2.2.2.1 ⟨"blue", "Bright Blue", "#3b82f6"⟩ (by rfl)

lemma brickFromJson_brickToJson (b : PlacedBrick) :
    brickFromJson (brickToJson b) = some b := by
  unfold brickFromJson brickToJson
  simp [Rat.den_intCast, Rat.num_intCast]

/-- C9: exporting any build to the JSON record format
`{id, typeId, position:[x,y,z], rotation, color}` and re-importing yields the
identical sequence of placed parts, field for field. -/
theorem export_import_roundtrip (bricks : List PlacedBrick) :
    importBuild (exportBuild bricks) = some bricks := by
  unfold importBuild exportBuild
  induction bricks with
  | nil => rfl
  | cons b bs ih =>
    simp only [List.map_cons, List.mapM_cons, brickFromJson_brickToJson,
      Option.bind_eq_bind, Option.some_bind] at ih ⊢
    rw [ih]
    rfl

/-- Rotation is one of the four quarter-turn states. -/
def rotOK (r : ℤ) : Prop := r = 0 ∨ r = 1 ∨ r = 2 ∨ r = 3

instance (r : ℤ) : Decidable (rotOK r) := by
  unfold rotOK
  infer_instance

/-- Every rotation stored anywhere in the state (selection, build, history
snapshots) is a valid quarter-turn state. -/
def stateRotOK (s : AppState) : Prop :=
  rotOK s.rotation ∧ (∀ b ∈ s.bricks, rotOK b.rotation) ∧
  ∀ snap ∈ s.history, ∀ b ∈ snap, rotOK b.rotation

/-- The states reachable through the interactive editing operations alone
(no file import, no AI import, no local-storage load). -/
inductive ReachableInteractive : AppState → Prop where
  | init : ReachableInteractive initialState
  | placeStep (newId : String) {s : AppState} : ReachableInteractive s →
      ReachableInteractive (handlePlaceBrick newId s)
  | rotateStep {s : AppState} : ReachableInteractive s →
      ReachableInteractive (rotateBrick s)
  | clickStep (tool : ToolMode) (brickId : String) {s : AppState} :
      ReachableInteractive s →
      ReachableInteractive (handleBrickClick tool brickId s)
  | undoStep {s : AppState} : ReachableInteractive s →
      ReachableInteractive (undo s)
  | redoStep {s : AppState} : ReachableInteractive s →
      ReachableInteractive (redo s)
  | clearStep {s : AppState} : ReachableInteractive s →
      ReachableInteractive (clearScene s)
  | selectTypeStep (tid : String) {s : AppState} : ReachableInteractive s →
      ReachableInteractive { s with selectedTypeId := tid }
  | selectColorStep (cid : String) {s : AppState} : ReachableInteractive s →
      ReachableInteractive { s with selectedColorId := cid }
  | hoverStep (brick : BrickTypeDefinition) (point normal : Vec3)
      {s : AppState} : ReachableInteractive s →
      ReachableInteractive
        { s with hoverPos := resolvePointer brick s.rotation point normal }

lemma rotOK_step {r : ℤ} (h : rotOK r) : rotOK (jsRem (r + 1) 4) := by
  rcases h with h | h | h | h <;> subst h <;> decide

lemma addToHistory_rotOK {s : AppState} {nb : List PlacedBrick}
    (hs : stateRotOK s) (hnb : ∀ b ∈ nb, rotOK b.rotation) :
    stateRotOK (addToHistory nb s) := by
  refine ⟨hs.1, hnb, ?_⟩
  intro snap hsnap
  unfold addToHistory at hsnap
  simp only [List.mem_append, List.mem_singleton] at hsnap
  rcases hsnap with hmem | rfl
  · exact hs.2.2 snap (List.take_subset _ _ hmem)
  · exact hnb

lemma history_getD_rotOK {s : AppState} (hs : stateRotOK s) (n : ℕ) :
    ∀ b ∈ s.history.getD n [], rotOK b.rotation := by
  by_cases h : n < s.history.length
  · rw [List.getD_eq_getElem _ _ h]
    exact hs.2.2 _ (List.getElem_mem h)
  · rw [List.getD_eq_default _ _ (by omega)]
    simp

lemma reachable_stateRotOK {s : AppState} (h : ReachableInteractive s) :
    stateRotOK s := by
  induction h with
  | init =>
    refine ⟨Or.inl rfl, ?_, ?_⟩ <;> simp [initialState]
  | placeStep newId h ih =>
    apply addToHistory_rotOK ih
    intro b hb
    rcases List.mem_append.mp hb with hmem | hmem
    · exact ih.2.1 b hmem
    · rw [List.mem_singleton.mp hmem]
      exact ih.1
  | rotateStep h ih =>
    exact ⟨rotOK_step ih.1, ih.2.1, ih.2.2⟩
  | clickStep tool brickId h ih =>
    unfold handleBrickClick
    split
    · apply addToHistory_rotOK ih
      intro b hb
      exact ih.2.1 b (List.mem_of_mem_filter hb)
    · split
      · apply addToHistory_rotOK ih
        intro b hb
        obtain ⟨a, ha, rfl⟩ := List.mem_map.mp hb
        have := ih.2.1 a ha
        split <;> simpa using this
      · exact ih
  | undoStep h ih =>
    unfold undo
    split
    · exact ⟨ih.1, history_getD_rotOK ih _, ih.2.2⟩
    · split
      · refine ⟨ih.1, ?_, ih.2.2⟩
        simp
      · exact ih
  | redoStep h ih =>
    unfold redo
    split
    · exact ⟨ih.1, history_getD_rotOK ih _, ih.2.2⟩
    · exact ih
  | clearStep h ih =>
    apply addToHistory_rotOK ih
    simp
  | selectTypeStep tid h ih =>
    exact ⟨ih.1, ih.2.1, ih.2.2⟩
  | selectColorStep cid h ih =>
    exact ⟨ih.1, ih.2.1, ih.2.2⟩
  | hoverStep brick point normal h ih =>
    exact ⟨ih.1, ih.2.1, ih.2.2⟩

/-- C4 (amended): every placed part in a state reachable through the
interactive place/rotate/click/undo/redo/clear operations has rotation in
{0,1,2,3}; the file-import and AI-import paths do not validate rotation and
can insert parts outside this set. -/
theorem interactive_rotation_invariant (s : AppState)
    (h : ReachableInteractive s) :
    ∀ b ∈ s.bricks,
      b.rotation = 0 ∨ b.rotation = 1 ∨ b.rotation = 2 ∨ b.rotation = 3 :=
  fun b hb => (reachable_stateRotOK h).2.1 b hb

/-- Witness for C4's amended invariant at the state reached by one place. -/
theorem interactive_rotation_invariant_witness :
    ({ id := "w2", typeId := "brick_1x1", position := ⟨0, 0, 0⟩,
       rotation := 0, color := "#ef4444" } : PlacedBrick).rotation = 0 ∨
    ({ id := "w2", typeId := "brick_1x1", position := ⟨0, 0, 0⟩,
       rotation := 0, color := "#ef4444" } : PlacedBrick).rotation = 1 ∨
    ({ id := "w2", typeId := "brick_1x1", position := ⟨0, 0, 0⟩,
       rotation := 0, color := "#ef4444" } : PlacedBrick).rotation = 2 ∨
    ({ id := "w2", typeId := "brick_1x1", position := ⟨0, 0, 0⟩,
       rotation := 0, color := "#ef4444" } : PlacedBrick).rotation = 3 :=
  interactive_rotation_invariant (handlePlaceBrick "w2" initialState)
    (ReachableInteractive.placeStep "w2" ReachableInteractive.init)
    _ (by decide)

/-- A record a file import may carry whose rotation 7 violates the
documented quarter-turn range. -/
def badRotBrick : PlacedBrick := ⟨"x1", "brick_1x1", ⟨0, 0, 0⟩, 7, "#ef4444"⟩

/-- Counterexample to C4 as stated: the build state reached by importing a
file whose one record carries rotation 7 contains a part with rotation
outside {0,1,2,3}, because `importFromFile` commits the parsed records
without validation. -/
theorem import_breaks_rotation_invariant :
    ¬ ∀ b ∈ (importFromFile [badRotBrick] initialState).bricks,
        b.rotation = 0 ∨ b.rotation = 1 ∨ b.rotation = 2 ∨ b.rotation = 3 := by
  decide

/-- C8 fails on the code: importing a batch with one rotation-7 record and
one valid record applies both verbatim — the invariant-violating record is
kept, not dropped. -/
theorem import_keeps_invalid_records :
    (importFromFile [badRotBrick, brickA] initialState).bricks =
      [badRotBrick, brickA] ∧
    badRotBrick.rotation = 7 :=
  ⟨rfl, rfl⟩
